import Mathlib

/-!
Verification of the employee leave-management service (`src/main.py`).

The service keeps two durable collections — employees and leaves — each
stored wholesale in a JSON file.  Every operation loads the relevant
collection(s), performs an in-memory scan or mutation, and (for writes)
saves the whole collection back.  We embed the records, the load helper,
and the six operations as pure Lean functions on explicit state, and prove
the specified properties about them.
-/

namespace LeaveMgmt

/-- Employee record, mirroring the `Employee` pydantic model of `main.py`
(fields `emp_id`, `emp_name`, `mail_id`, `emp_role`, `emp_dept`,
`date_of_joining`, and the `leaves` mapping from category to remaining
day count, modelled as an association list). -/
structure Employee where
  emp_id : String
  emp_name : String
  mail_id : String
  emp_role : String
  emp_dept : String
  date_of_joining : String
  leaves : List (String × Int)
deriving DecidableEq

/-- Default value of the `leaves` field of `Employee` in `main.py`:
`{"sick": 24, "casual": 12}`. -/
def defaultLeaves : List (String × Int) := [("sick", 24), ("casual", 12)]

/-- Leave record, mirroring the `Leave` pydantic model of `main.py`. -/
structure Leave where
  leave_id : String
  employee_id : String
  leave_type : String
  from_date : String
  to_date : String
  leave_status : String
deriving DecidableEq

/-- Building a `Leave` without supplying `leave_status` uses the pydantic
default `"Pending"` (`leave_status: str = "Pending"` in `main.py`). -/
def mkLeave (lid eid lt fd td : String) : Leave :=
  ⟨lid, eid, lt, fd, td, "Pending"⟩

/-- An `HTTPException` as raised by the handlers: a status code plus a
`detail` string. -/
structure HTTPError where
  status_code : Nat
  detail : String
deriving DecidableEq

/-- The durable state of the service: the employee collection
(`employees.json`) and the leave collection (`leave.json`), each an
ordered sequence of records. -/
structure Sys where
  employees : List Employee
  leaves : List Leave
deriving DecidableEq

/-- The state with both collections empty. -/
def emptySys : Sys := ⟨[], []⟩

/-- A `{"status_code": ..., "message": ...}` success payload. -/
structure ApiMsg where
  status_code : Nat
  message : String
deriving DecidableEq

/-- Return payload of `fetch_all_employees`.  On an empty store the code
returns only `total_employees` and `employees`, so `status_code` and
`message` are optional here. -/
structure EmployeesResp where
  status_code : Option Nat
  message : Option String
  total_employees : Nat
  employees : List Employee
deriving DecidableEq

/-- Return payload of `fetch_employee_by_id`. -/
structure EmpResp where
  status_code : Nat
  employee : Employee
deriving DecidableEq

/-- Return payload of `fetch_employee_leaves`. -/
structure LeavesResp where
  status_code : Nat
  total_leaves : Nat
  leaves : List Leave
deriving DecidableEq

/-! ## Durable-storage loading (`load_data`, lines 48–59)

`load_data` returns `[]` when the backing file does not exist, and also
when `json.load` raises `JSONDecodeError` (malformed content).  We model
the observable condition of a backing file explicitly. -/

/-- Condition of a backing JSON file: absent, present but unparseable, or
present with parsed contents. -/
inductive FileState (α : Type) where
  | absent : FileState α
  | corrupt : FileState α
  | good : List α → FileState α
deriving DecidableEq

/-- `load_data` (`main.py` lines 48–59): missing or malformed storage
yields the empty list; otherwise the parsed contents. -/
def load_data {α : Type} : FileState α → List α
  | .absent => []
  | .corrupt => []
  | .good d => d

/-- Loading both collections from their backing files at the start of an
operation. -/
def loadSys (fe : FileState Employee) (fl : FileState Leave) : Sys :=
  ⟨load_data fe, load_data fl⟩

/-! ## Operations

Each operation is a function of the loaded state.  Mutating operations
return the new durable state alongside the result; when the python code
raises an `HTTPException` before `save_data`, the durable state is
returned unchanged. -/

/-- `add_employee` (`main.py` lines 69–80): linear duplicate scan over
`emp_id`, then append and save. -/
def add_employee (employee : Employee) (s : Sys) :
    Except HTTPError ApiMsg × Sys :=
  if s.employees.any (fun e => e.emp_id == employee.emp_id) then
    (.error ⟨400, "Employee ID already exists."⟩, s)
  else
    (.ok ⟨200, "Employee created successfully"⟩,
     { s with employees := s.employees ++ [employee] })

/-- `fetch_all_employees` (`main.py` lines 82–96): no error path; the
empty store returns a bare zero-count payload. -/
def fetch_all_employees (s : Sys) : EmployeesResp :=
  if s.employees.isEmpty then
    ⟨none, none, 0, []⟩
  else
    ⟨some 200, some "Employee data fetched successfully",
     s.employees.length, s.employees⟩

/-- `fetch_employee_by_id` (`main.py` lines 98–108): first match on
`emp_id`, 404 otherwise. -/
def fetch_employee_by_id (emp_id : String) (s : Sys) :
    Except HTTPError EmpResp :=
  match s.employees.find? (fun e => e.emp_id == emp_id) with
  | none => .error ⟨404, "Employee not found."⟩
  | some e => .ok ⟨200, e⟩

/-- `apply_employee_leave` (`main.py` lines 111–123): existence check on
`leave.employee_id` against the employee collection, then append the
leave record as given and save. -/
def apply_employee_leave (leave : Leave) (s : Sys) :
    Except HTTPError ApiMsg × Sys :=
  if s.employees.any (fun e => e.emp_id == leave.employee_id) then
    (.ok ⟨200, "Leave applied, pending approval"⟩,
     { s with leaves := s.leaves ++ [leave] })
  else
    (.error ⟨404, "Employee not found."⟩, s)

/-- `fetch_employee_leaves` (`main.py` lines 125–136): list comprehension
filtering on `employee_id`, count is its length, always status 200. -/
def fetch_employee_leaves (emp_id : String) (s : Sys) : LeavesResp :=
  let emp_leaves := s.leaves.filter (fun l => l.employee_id == emp_id)
  ⟨200, emp_leaves.length, emp_leaves⟩

/-- In-place mutation of the first record whose `leave_id` matches, as
performed by `leave["leave_status"] = status` on the dict returned by
`next(...)` in `update_leave_status_info`. -/
def setStatusFirst (lid status : String) : List Leave → List Leave
  | [] => []
  | l :: rest =>
      if l.leave_id == lid then
        { l with leave_status := status } :: rest
      else
        l :: setStatusFirst lid status rest

/-- `update_leave_status_info` (`main.py` lines 138–161): find the leave
(404 `"Leave not found."` if absent), then its owning employee (404
`"Employee not found for this leave."` if absent), then overwrite the
status of the first matching leave and save the whole collection. -/
def update_leave_status_info (leave_id status : String) (s : Sys) :
    Except HTTPError ApiMsg × Sys :=
  match s.leaves.find? (fun l => l.leave_id == leave_id) with
  | none => (.error ⟨404, "Leave not found."⟩, s)
  | some leave =>
    match s.employees.find? (fun e => e.emp_id == leave.employee_id) with
    | none => (.error ⟨404, "Employee not found for this leave."⟩, s)
    | some _ =>
      (.ok ⟨200, "Leave status updated to " ++ status⟩,
       { s with leaves := setStatusFirst leave_id status s.leaves })

/-! ## Endpoint-level step semantics

The six API endpoints each map 1:1 to one operation above.  A uniform
step function lets us speak about sequences of calls and about which
operations write to durable state. -/

/-- One external call to the service. -/
inductive Op where
  | createEmployee : Employee → Op
  | listEmployees : Op
  | getEmployee : String → Op
  | createLeave : Leave → Op
  | listLeaves : String → Op
  | updateStatus : String → String → Op
deriving DecidableEq

/-- Response of one external call. -/
inductive Resp where
  | failure : HTTPError → Resp
  | msg : ApiMsg → Resp
  | employeeList : EmployeesResp → Resp
  | employee : EmpResp → Resp
  | leaveList : LeavesResp → Resp
deriving DecidableEq

/-- Execute one call against the durable state, returning the response
and the durable state after the call. -/
def step : Op → Sys → Resp × Sys
  | .createEmployee e, s =>
      match add_employee e s with
      | (.error err, s') => (.failure err, s')
      | (.ok m, s') => (.msg m, s')
  | .listEmployees, s => (.employeeList (fetch_all_employees s), s)
  | .getEmployee eid, s =>
      match fetch_employee_by_id eid s with
      | .error err => (.failure err, s)
      | .ok r => (.employee r, s)
  | .createLeave l, s =>
      match apply_employee_leave l s with
      | (.error err, s') => (.failure err, s')
      | (.ok m, s') => (.msg m, s')
  | .listLeaves eid, s => (.leaveList (fetch_employee_leaves eid s), s)
  | .updateStatus lid st, s =>
      match update_leave_status_info lid st s with
      | (.error err, s') => (.failure err, s')
      | (.ok m, s') => (.msg m, s')

/-- Run a sequence of calls, keeping only the final durable state. -/
def run (ops : List Op) (s : Sys) : Sys :=
  ops.foldl (fun s o => (step o s).2) s

/-! ## Concrete fixtures used by the witnesses below -/

/-- A concrete employee (the scenario employee of the spec, §8). -/
def empA : Employee :=
  ⟨"E1", "A", "a@x.com", "dev", "eng", "2024-01-01", defaultLeaves⟩

/-- A second employee record re-using `empA`'s identifier. -/
def empA2 : Employee :=
  ⟨"E1", "B", "b@x.com", "qa", "eng", "2024-05-01", defaultLeaves⟩

/-- A concrete leave owned by `empA`. -/
def leaveA : Leave := ⟨"L1", "E1", "sick", "2024-02-01", "2024-02-02", "Pending"⟩

/-- A second concrete leave owned by `empA`. -/
def leaveB : Leave := ⟨"L2", "E1", "casual", "2024-03-01", "2024-03-02", "Pending"⟩

/-- A leave whose owning employee identifier resolves to no employee. -/
def orphanLeave : Leave := ⟨"L7", "E9", "sick", "2024-02-01", "2024-02-02", "Pending"⟩

/-- State holding `empA` and an orphaned leave. -/
def sysOrphan : Sys := ⟨[empA], [orphanLeave]⟩

/-- State holding `empA` and two of its leaves. -/
def sysTwo : Sys := ⟨[empA], [leaveA, leaveB]⟩

/-! ## Helper lemmas -/

/-- If a linear `find?` scan succeeds, the list splits into a prefix of
non-matches, the found element, and the rest. -/
theorem find?_decomp {α : Type} (p : α → Bool) (xs : List α) (x : α)
    (h : xs.find? p = some x) :
    ∃ pre post, xs = pre ++ x :: post ∧ (∀ y ∈ pre, p y = false) ∧ p x = true := by
  induction xs with
  | nil => simp [List.find?] at h
  | cons a rest ih =>
    rw [List.find?] at h
    cases hpa : p a with
    | true =>
      rw [hpa] at h
      simp only [Option.some.injEq] at h
      exact ⟨[], rest, by simp [h], by simp, h ▸ hpa⟩
    | false =>
      rw [hpa] at h
      obtain ⟨pre, post, hxs, hpre, hx⟩ := ih h
      refine ⟨a :: pre, post, by simp [hxs], ?_, hx⟩
      intro y hy
      rcases List.mem_cons.mp hy with h1 | h2
      · exact h1 ▸ hpa
      · exact hpre y h2

/-- Converse of `find?_decomp`: a split into non-matching prefix, match,
and rest determines the result of the scan. -/
theorem find?_append_cons {α : Type} (p : α → Bool) (pre post : List α) (x : α)
    (hpre : ∀ y ∈ pre, p y = false) (hx : p x = true) :
    (pre ++ x :: post).find? p = some x := by
  induction pre with
  | nil => simp [List.find?, hx]
  | cons a rest ih =>
    have ha := hpre a (List.mem_cons_self a rest)
    rw [List.cons_append, List.find?, ha]
    exact ih fun y hy => hpre y (List.mem_cons_of_mem a hy)

/-- `setStatusFirst` rewrites exactly the first matching record and
leaves every record before and after it untouched. -/
theorem setStatusFirst_append (lid st : String) (pre post : List Leave) (l : Leave)
    (hpre : ∀ x ∈ pre, (x.leave_id == lid) = false)
    (hl : (l.leave_id == lid) = true) :
    setStatusFirst lid st (pre ++ l :: post) =
      pre ++ { l with leave_status := st } :: post := by
  induction pre with
  | nil => simp [setStatusFirst, hl]
  | cons a rest ih =>
    have ha := hpre a (List.mem_cons_self a rest)
    rw [List.cons_append, setStatusFirst, ha, if_neg Bool.false_ne_true,
      List.cons_append]
    exact congrArg (a :: ·) (ih fun x hx => hpre x (List.mem_cons_of_mem a hx))

/-! ## Claims -/

/-- C1: `update_status(leave_id, new_status)` fails with `LeaveNotFound`
(404, `"Leave not found."`) when no leave record carries `leave_id`, and
— the leave check having precedence — fails with `OwningEmployeeNotFound`
(404, `"Employee not found for this leave."`) when the leave exists but
its `employee_id` resolves to no employee record; in both failure cases
neither stored collection is modified.  The first conjunct quantifies
over every employee collection, so a missing leave yields `LeaveNotFound`
regardless of the employee store: the leave check is evaluated first. -/
theorem update_status_precondition_order (s : Sys) (leave_id status : String) :
    (s.leaves.find? (fun l => l.leave_id == leave_id) = none →
      update_leave_status_info leave_id status s =
        (.error ⟨404, "Leave not found."⟩, s)) ∧
    (∀ l, s.leaves.find? (fun x => x.leave_id == leave_id) = some l →
      s.employees.find? (fun e => e.emp_id == l.employee_id) = none →
      update_leave_status_info leave_id status s =
        (.error ⟨404, "Employee not found for this leave."⟩, s)) := by
  constructor
  · intro h
    simp only [update_leave_status_info, h]
  · intro l hl he
    simp only [update_leave_status_info, hl, he]

/-- Witness for C1 at concrete inputs: in `sysOrphan`, updating the
absent leave `"L9"` fails with `LeaveNotFound`, and updating the orphaned
leave `"L7"` fails with `OwningEmployeeNotFound`; the state is returned
unchanged both times. -/
theorem update_status_precondition_order_witness :
    update_leave_status_info "L9" "Approved" sysOrphan =
      (.error ⟨404, "Leave not found."⟩, sysOrphan) ∧
    update_leave_status_info "L7" "Approved" sysOrphan =
      (.error ⟨404, "Employee not found for this leave."⟩, sysOrphan) :=
  ⟨(update_status_precondition_order sysOrphan "L9" "Approved").1 (by decide),
   (update_status_precondition_order sysOrphan "L7" "Approved").2 orphanLeave
     (by decide) (by decide)⟩

/-- C2: when the leave collection splits as `pre ++ l :: post` with `l`
the first record carrying `leave_id` and `l`'s owning employee present,
`update_status(leave_id, status)` succeeds for an arbitrary status string
(no legality check against the prior status) and the new state keeps the
employee collection — leave-balance counts included — and every leave in
`pre` and `post` byte-identical, overwriting only `l`'s `leave_status`
field (`{ l with leave_status := status }` keeps all other fields). -/
theorem update_status_frame (s : Sys) (leave_id status : String)
    (l : Leave) (e : Employee) (pre post : List Leave)
    (hs : s.leaves = pre ++ l :: post)
    (hpre : ∀ x ∈ pre, (x.leave_id == leave_id) = false)
    (hl : (l.leave_id == leave_id) = true)
    (hemp : s.employees.find? (fun x => x.emp_id == l.employee_id) = some e) :
    update_leave_status_info leave_id status s =
      (.ok ⟨200, "Leave status updated to " ++ status⟩,
       { employees := s.employees,
         leaves := pre ++ { l with leave_status := status } :: post }) := by
  have hfind : s.leaves.find? (fun x => x.leave_id == leave_id) = some l := by
    rw [hs]
    exact find?_append_cons _ pre post l hpre hl
  simp only [update_leave_status_info, hfind, hemp]
  rw [hs, setStatusFirst_append _ _ _ _ _ hpre hl]

/-- Witness for C2 at concrete inputs: in `sysTwo` (employee `empA`,
leaves `leaveA`, `leaveB`), updating `"L1"` to `"Approved"` rewrites only
`leaveA`'s status, keeping `leaveB` and the employee collection intact. -/
theorem update_status_frame_witness :
    update_leave_status_info "L1" "Approved" sysTwo =
      (.ok ⟨200, "Leave status updated to " ++ "Approved"⟩,
       { employees := sysTwo.employees,
         leaves := [] ++ { leaveA with leave_status := "Approved" } :: [leaveB] }) :=
  update_status_frame sysTwo "L1" "Approved" leaveA empA [] [leaveB]
    (by decide) (by decide) (by decide) (by decide)

/-- C3: creating `e1` in a state whose employee collection has no record
with `e1`'s identifier succeeds and appends `e1`; creating `e2` with the
same identifier afterwards fails with `DuplicateIdentifier` (400,
`"Employee ID already exists."`, decided by the linear `any` scan in
`add_employee`), and the stored collection after the failed call is
exactly the collection as it was after creating `e1`. -/
theorem add_employee_duplicate (s : Sys) (e1 e2 : Employee)
    (hfresh : ∀ e ∈ s.employees, (e.emp_id == e1.emp_id) = false)
    (hdup : e2.emp_id = e1.emp_id) :
    add_employee e1 s =
      (.ok ⟨200, "Employee created successfully"⟩,
       { s with employees := s.employees ++ [e1] }) ∧
    add_employee e2 { s with employees := s.employees ++ [e1] } =
      (.error ⟨400, "Employee ID already exists."⟩,
       { s with employees := s.employees ++ [e1] }) := by
  have hany : s.employees.any (fun e => e.emp_id == e1.emp_id) = false := by
    rw [List.any_eq_false]
    intro e he
    simp [hfresh e he]
  have hany2 :
      (s.employees ++ [e1]).any (fun e => e.emp_id == e2.emp_id) = true := by
    rw [List.any_eq_true]
    exact ⟨e1, by simp, by simp [hdup]⟩
  constructor
  · simp only [add_employee, hany, Bool.false_eq_true, if_false]
  · simp only [add_employee, hany2, if_true]

/-- Witness for C3 at concrete inputs: creating `empA` in the empty store
succeeds, and creating `empA2` (same identifier `"E1"`, different other
fields) afterwards fails with `DuplicateIdentifier`, leaving the
collection as after creating `empA`. -/
theorem add_employee_duplicate_witness :
    add_employee empA emptySys =
      (.ok ⟨200, "Employee created successfully"⟩,
       { emptySys with employees := emptySys.employees ++ [empA] }) ∧
    add_employee empA2 { emptySys with employees := emptySys.employees ++ [empA] } =
      (.error ⟨400, "Employee ID already exists."⟩,
       { emptySys with employees := emptySys.employees ++ [empA] }) :=
  add_employee_duplicate emptySys empA empA2 (by decide) (by decide)

/-- A leave record submitted with a non-default status string. -/
def approvedLeave : Leave :=
  ⟨"L3", "E1", "sick", "2024-02-01", "2024-02-02", "Approved"⟩

/-- State holding only `empA`, with no leaves. -/
def sysEmpOnly : Sys := ⟨[empA], []⟩

/-- Counterexample to C4 as stated: `apply_employee_leave` appends the
leave record exactly as given (`leaves.append(leave.dict())`), so a
record submitted with `leave_status` `"Approved"` is appended with status
`"Approved"`, not `"Pending"`, even though the owning employee exists and
the call succeeds. -/
theorem apply_leave_pending_counterexample :
    apply_employee_leave approvedLeave sysEmpOnly =
      (.ok ⟨200, "Leave applied, pending approval"⟩,
       { sysEmpOnly with leaves := [approvedLeave] }) ∧
    approvedLeave.leave_status = "Approved" ∧
    approvedLeave.leave_status ≠ "Pending" :=
  ⟨rfl, rfl, by decide⟩

/-- C4 (amended): when `leave.employee_id` matches no stored employee,
`apply(leave)` fails with `EmployeeNotFound` and the leave collection is
unchanged; when the employee exists, the leave record is appended exactly
as given — its status is `"Pending"` precisely when the input carries the
pydantic default `leave_status = "Pending"` (as `mkLeave` does) — and a
success confirmation is returned. -/
theorem apply_leave_spec (s : Sys) (leave : Leave) :
    ((∀ e ∈ s.employees, (e.emp_id == leave.employee_id) = false) →
      apply_employee_leave leave s = (.error ⟨404, "Employee not found."⟩, s)) ∧
    (∀ e, e ∈ s.employees → e.emp_id = leave.employee_id →
      apply_employee_leave leave s =
        (.ok ⟨200, "Leave applied, pending approval"⟩,
         { s with leaves := s.leaves ++ [leave] })) ∧
    (∀ lid eid lt fd td, (mkLeave lid eid lt fd td).leave_status = "Pending") := by
  refine ⟨?_, ?_, fun _ _ _ _ _ => rfl⟩
  · intro h
    have hany : s.employees.any (fun e => e.emp_id == leave.employee_id) = false :=
      List.any_eq_false.mpr fun e he => by simp [h e he]
    simp only [apply_employee_leave, hany, Bool.false_eq_true, if_false]
  · intro e he hid
    have hany : s.employees.any (fun e => e.emp_id == leave.employee_id) = true :=
      List.any_eq_true.mpr ⟨e, he, by simp [hid]⟩
    simp only [apply_employee_leave, hany, if_true]

/-- Witness for C4 (amended) at concrete inputs: applying `leaveA` on the
empty store fails with `EmployeeNotFound` leaving the state unchanged;
applying it when `empA` exists appends it; `mkLeave` defaults the status
to `"Pending"`. -/
theorem apply_leave_spec_witness :
    apply_employee_leave leaveA emptySys =
      (.error ⟨404, "Employee not found."⟩, emptySys) ∧
    apply_employee_leave leaveA sysEmpOnly =
      (.ok ⟨200, "Leave applied, pending approval"⟩,
       { sysEmpOnly with leaves := sysEmpOnly.leaves ++ [leaveA] }) ∧
    (mkLeave "L1" "E1" "sick" "2024-02-01" "2024-02-02").leave_status = "Pending" :=
  ⟨(apply_leave_spec emptySys leaveA).1 (by decide),
   (apply_leave_spec sysEmpOnly leaveA).2.1 empA (by decide) (by decide),
   (apply_leave_spec sysEmpOnly leaveA).2.2 "L1" "E1" "sick" "2024-02-01"
     "2024-02-02"⟩

/-- C5: `list_for_employee(id)` returns exactly the subsequence (filter)
of leave records whose `employee_id` equals `id`, in original insertion
order (a `Sublist` of the stored collection), with count equal to its
length; the result always carries status 200, so an empty result (count
0) is not an error. -/
theorem list_for_employee_spec (s : Sys) (emp_id : String) :
    (fetch_employee_leaves emp_id s).leaves =
      s.leaves.filter (fun l => l.employee_id == emp_id) ∧
    (fetch_employee_leaves emp_id s).leaves.Sublist s.leaves ∧
    (∀ l, l ∈ (fetch_employee_leaves emp_id s).leaves ↔
      l ∈ s.leaves ∧ l.employee_id = emp_id) ∧
    (fetch_employee_leaves emp_id s).total_leaves =
      (fetch_employee_leaves emp_id s).leaves.length ∧
    (fetch_employee_leaves emp_id s).status_code = 200 := by
  refine ⟨rfl, List.filter_sublist s.leaves, ?_, rfl, rfl⟩
  intro l
  simp [fetch_employee_leaves, List.mem_filter]

/-- Witness for C5 at concrete inputs: listing `"E1"`'s leaves in
`sysTwo` filters the stored collection, the membership characterisation
holds at `leaveA`, and the count equals the length. -/
theorem list_for_employee_spec_witness :
    (fetch_employee_leaves "E1" sysTwo).leaves =
      sysTwo.leaves.filter (fun l => l.employee_id == "E1") ∧
    (leaveA ∈ (fetch_employee_leaves "E1" sysTwo).leaves ↔
      leaveA ∈ sysTwo.leaves ∧ leaveA.employee_id = "E1") ∧
    (fetch_employee_leaves "E1" sysTwo).total_leaves =
      (fetch_employee_leaves "E1" sysTwo).leaves.length :=
  ⟨(list_for_employee_spec sysTwo "E1").1,
   (list_for_employee_spec sysTwo "E1").2.2.1 leaveA,
   (list_for_employee_spec sysTwo "E1").2.2.2.1⟩

/-- Counterexample to C6 as stated: two calls whose offending
identifiers differ (`"E404"` vs `"E405"`) produce byte-identical typed
failures — the `HTTPException` payload is the fixed string
`"Employee not found."` with no identifier in it — so the failure payload
does not carry enough information to identify the offending identifier. -/
theorem error_payload_counterexample :
    fetch_employee_by_id "E404" emptySys = .error ⟨404, "Employee not found."⟩ ∧
    fetch_employee_by_id "E405" emptySys = .error ⟨404, "Employee not found."⟩ ∧
    ("E404" : String) ≠ "E405" :=
  ⟨rfl, rfl, by decide⟩

/-- C6 (amended): every lookup or uniqueness failure is surfaced
immediately to the caller as a typed failure (an HTTP status code and a
fixed detail string determined only by the failure kind), with no retry
or internal recovery and no state change; the payload does not itself
carry the offending identifier. -/
theorem error_propagation_spec (s : Sys) :
    (∀ e2, s.employees.any (fun e => e.emp_id == e2.emp_id) = true →
      add_employee e2 s = (.error ⟨400, "Employee ID already exists."⟩, s)) ∧
    (∀ eid, s.employees.find? (fun e => e.emp_id == eid) = none →
      fetch_employee_by_id eid s = .error ⟨404, "Employee not found."⟩) ∧
    (∀ lv, s.employees.any (fun e => e.emp_id == lv.employee_id) = false →
      apply_employee_leave lv s = (.error ⟨404, "Employee not found."⟩, s)) ∧
    (∀ lid st, s.leaves.find? (fun l => l.leave_id == lid) = none →
      update_leave_status_info lid st s = (.error ⟨404, "Leave not found."⟩, s)) ∧
    (∀ lid st l, s.leaves.find? (fun x => x.leave_id == lid) = some l →
      s.employees.find? (fun e => e.emp_id == l.employee_id) = none →
      update_leave_status_info lid st s =
        (.error ⟨404, "Employee not found for this leave."⟩, s)) := by
  refine ⟨?_, ?_, ?_, ?_, ?_⟩
  · intro e2 h
    simp only [add_employee, h, if_true]
  · intro eid h
    simp only [fetch_employee_by_id, h]
  · intro lv h
    simp only [apply_employee_leave, h, Bool.false_eq_true, if_false]
  · intro lid st h
    simp only [update_leave_status_info, h]
  · intro lid st l hl he
    simp only [update_leave_status_info, hl, he]

/-- Witness for C6 (amended) at concrete inputs: all five failure kinds,
each returning its fixed typed payload with the state unchanged. -/
theorem error_propagation_spec_witness :
    add_employee empA2 sysTwo =
      (.error ⟨400, "Employee ID already exists."⟩, sysTwo) ∧
    fetch_employee_by_id "E404" sysTwo = .error ⟨404, "Employee not found."⟩ ∧
    apply_employee_leave orphanLeave sysTwo =
      (.error ⟨404, "Employee not found."⟩, sysTwo) ∧
    update_leave_status_info "L9" "Approved" sysTwo =
      (.error ⟨404, "Leave not found."⟩, sysTwo) ∧
    update_leave_status_info "L7" "Rejected" sysOrphan =
      (.error ⟨404, "Employee not found for this leave."⟩, sysOrphan) :=
  ⟨(error_propagation_spec sysTwo).1 empA2 (by decide),
   (error_propagation_spec sysTwo).2.1 "E404" (by decide),
   (error_propagation_spec sysTwo).2.2.1 orphanLeave (by decide),
   (error_propagation_spec sysTwo).2.2.2.1 "L9" "Approved" (by decide),
   (error_propagation_spec sysOrphan).2.2.2.2 "L7" "Rejected" orphanLeave
     (by decide) (by decide)⟩

/-- C7: `load_data` yields the empty collection when the backing file is
absent or its contents are malformed, and consequently every one of the
six operations run against missing or corrupted storage behaves exactly
as it would against a genuinely empty store. -/
theorem load_corrupt_as_empty (fe : FileState Employee) (fl : FileState Leave)
    (hfe : fe = .absent ∨ fe = .corrupt) (hfl : fl = .absent ∨ fl = .corrupt) :
    load_data fe = [] ∧ load_data fl = [] ∧
    loadSys fe fl = emptySys ∧
    (∀ e, add_employee e (loadSys fe fl) = add_employee e emptySys) ∧
    fetch_all_employees (loadSys fe fl) = fetch_all_employees emptySys ∧
    (∀ eid, fetch_employee_by_id eid (loadSys fe fl) =
      fetch_employee_by_id eid emptySys) ∧
    (∀ lv, apply_employee_leave lv (loadSys fe fl) =
      apply_employee_leave lv emptySys) ∧
    (∀ eid, fetch_employee_leaves eid (loadSys fe fl) =
      fetch_employee_leaves eid emptySys) ∧
    (∀ lid st, update_leave_status_info lid st (loadSys fe fl) =
      update_leave_status_info lid st emptySys) := by
  have h1 : load_data fe = [] := by rcases hfe with h | h <;> subst h <;> rfl
  have h2 : load_data fl = [] := by rcases hfl with h | h <;> subst h <;> rfl
  have h3 : loadSys fe fl = emptySys := by
    simp [loadSys, h1, h2, emptySys]
  exact ⟨h1, h2, h3, fun e => by rw [h3], by rw [h3], fun eid => by rw [h3],
    fun lv => by rw [h3], fun eid => by rw [h3], fun lid st => by rw [h3]⟩

/-- Witness for C7 at concrete inputs: a corrupt employee file and an
absent leave file load as empty, and two sample operations coincide with
their behaviour on the genuinely empty store. -/
theorem load_corrupt_as_empty_witness :
    load_data (FileState.corrupt : FileState Employee) = [] ∧
    load_data (FileState.absent : FileState Leave) = [] ∧
    loadSys FileState.corrupt FileState.absent = emptySys ∧
    fetch_all_employees (loadSys FileState.corrupt FileState.absent) =
      fetch_all_employees emptySys ∧
    update_leave_status_info "L1" "Approved"
        (loadSys FileState.corrupt FileState.absent) =
      update_leave_status_info "L1" "Approved" emptySys := by
  have h := load_corrupt_as_empty FileState.corrupt FileState.absent
    (Or.inr rfl) (Or.inl rfl)
  exact ⟨h.1, h.2.1, h.2.2.1, h.2.2.2.2.1,
    h.2.2.2.2.2.2.2.2 "L1" "Approved"⟩

/-- C8: `list_all()` returns the full employee sequence in insertion
order together with a count equal to its length, for every store; it has
no error path, and the empty store yields the bare zero-count payload
(no status code or message in the python response) rather than an
error. -/
theorem list_all_spec (s : Sys) :
    (fetch_all_employees s).employees = s.employees ∧
    (fetch_all_employees s).total_employees = s.employees.length ∧
    (s.employees = [] → fetch_all_employees s = ⟨none, none, 0, []⟩) := by
  cases hs : s.employees with
  | nil =>
    refine ⟨?_, ?_, fun _ => ?_⟩ <;> simp [fetch_all_employees, hs]
  | cons a rest =>
    refine ⟨?_, ?_, fun h => absurd (hs ▸ h) (List.cons_ne_nil a rest)⟩ <;>
      simp [fetch_all_employees, hs]

/-- Witness for C8 at concrete inputs: on `sysTwo` the full collection
and its length are returned; on the empty store the bare zero-count
payload is returned. -/
theorem list_all_spec_witness :
    (fetch_all_employees sysTwo).employees = sysTwo.employees ∧
    (fetch_all_employees sysTwo).total_employees = sysTwo.employees.length ∧
    fetch_all_employees emptySys = ⟨none, none, 0, []⟩ :=
  ⟨(list_all_spec sysTwo).1, (list_all_spec sysTwo).2.1,
   (list_all_spec emptySys).2.2 rfl⟩

/-- C9: the two read endpoints (`list_all`, `list_for_employee`) leave
the durable state untouched — they perform no write — and therefore
calling either twice in a row with no intervening operation returns the
identical response both times. -/
theorem reads_are_pure (s : Sys) (emp_id : String) :
    (step .listEmployees s).2 = s ∧
    (step (.listLeaves emp_id) s).2 = s ∧
    (step .listEmployees ((step .listEmployees s).2)).1 =
      (step .listEmployees s).1 ∧
    (step (.listLeaves emp_id) ((step (.listLeaves emp_id) s).2)).1 =
      (step (.listLeaves emp_id) s).1 :=
  ⟨rfl, rfl, rfl, rfl⟩

/-- A second leave record submitted with the same `leave_id` as
`leaveA`: `apply_employee_leave` performs no uniqueness check, so both
are stored. -/
def leaveDup : Leave :=
  ⟨"L1", "E1", "casual", "2024-03-05", "2024-03-06", "Pending"⟩

/-- The state after creating `empA` and applying `leaveA` and `leaveDup`
(both with `leave_id` `"L1"`) through the endpoint-level semantics. -/
def dupState : Sys :=
  run [.createEmployee empA, .createLeave leaveA, .createLeave leaveDup]
    emptySys

/-- C10: a concrete call sequence (create `empA`, apply `leaveA`, apply
`leaveDup`) leaves the store with two distinct records sharing
`leave_id = "L1"` — `apply` performs no uniqueness check — and in that
state `update_status("L1", "Approved")` rewrites only the first matching
record, leaving the later duplicate unchanged; in general,
`setStatusFirst` rewrites exactly the first match of a decomposed
collection, so every record after it — duplicates included — is kept
byte-identical. -/
theorem duplicate_leave_first_match :
    (dupState.leaves = [leaveA, leaveDup] ∧
     leaveA.leave_id = leaveDup.leave_id ∧
     leaveA ≠ leaveDup ∧
     (step (.updateStatus "L1" "Approved") dupState).2.leaves =
       [{ leaveA with leave_status := "Approved" }, leaveDup]) ∧
    (∀ (pre post : List Leave) (l : Leave) (lid st : String),
      (∀ x ∈ pre, (x.leave_id == lid) = false) →
      (l.leave_id == lid) = true →
      setStatusFirst lid st (pre ++ l :: post) =
        pre ++ { l with leave_status := st } :: post) := by
  refine ⟨⟨by decide, by decide, by decide, by decide⟩,
    fun pre post l lid st hpre hl => setStatusFirst_append lid st pre post l hpre hl⟩

/-- Witness for C10 at concrete inputs: the duplicate state is reachable
and the first-match rewrite applies to the concrete decomposition
`[] ++ leaveA :: [leaveDup]`. -/
theorem duplicate_leave_first_match_witness :
    dupState.leaves = [leaveA, leaveDup] ∧
    setStatusFirst "L1" "Approved" ([] ++ leaveA :: [leaveDup]) =
      [] ++ { leaveA with leave_status := "Approved" } :: [leaveDup] :=
  ⟨duplicate_leave_first_match.1.1,
   duplicate_leave_first_match.2 [] [leaveDup] leaveA "L1" "Approved"
     (by decide) (by decide)⟩

end LeaveMgmt
